import Mathlib

/-!
# Labson API: course controller and auth route table

A shallow embedding of `controllers/courses.js` and `routes/auth.js`.

Every handler of the course controller is an `async (req, res, next)` function wrapped in
`asyncHandler`.  A handler is embedded as a pure function from the request and the content of
the document store to an `Outcome`: the store once every operation started by the handler has
settled, the response sent through `res` (if any), the call of `next` (if any) and the list of
persistence calls the handler made, in order.

Document ids are plain strings.  The model layer (`models/Course`, `models/Bootcamp`) and
`utils/errorResponse` are required by the controller but are not part of the sources at hand;
what the controller needs from them is modelled below and marked as such.
-/

namespace Labson

/-! ## Data model -/

/-- The authenticated caller, `req.user`. -/
structure User where
  id : String
  role : String
  deriving DecidableEq, Repr

/-- A stored bootcamp document. Only the fields the controller reads are kept. -/
structure Bootcamp where
  _id : String
  user : String
  name : String
  description : String
  deriving DecidableEq, Repr

/-- A stored course document: its id, its creator, its parent bootcamp and the remaining
schema fields (title, description, ...) as key and value pairs. -/
structure Course where
  _id : String
  user : String
  bootcamp : String
  fields : List (String × String)
  deriving DecidableEq, Repr

/-- The request body `req.body`: a JSON object in which `user` and `bootcamp` may or may not
be present, plus the remaining keys. -/
structure Body where
  user : Option String
  bootcamp : Option String
  fields : List (String × String)
  deriving DecidableEq, Repr

/-- The path parameters `req.params`. A parameter that the matched route does not bind is
`undefined`, here `none`. -/
structure Params where
  id : Option String
  bootcampId : Option String
  deriving DecidableEq, Repr

/-- The request object, as far as the course controller reads it. -/
structure Request where
  params : Params
  body : Body
  user : User
  deriving DecidableEq, Repr

/-- The document store: the two collections the course controller touches. -/
structure Store where
  courses : List Course
  bootcamps : List Bootcamp
  deriving DecidableEq, Repr

/-- Modelled from the spec: `utils/errorResponse` is missing. `new ErrorResponse(message,
statusCode)` is an error object that carries the two constructor arguments; an argument the
call site leaves out is `undefined`, here `none`. -/
structure ErrorResponse where
  message : String
  statusCode : Option Nat
  deriving DecidableEq, Repr

/-- What a handler can hand to `next`: an `ErrorResponse` it built itself, or the
`ValidationError` with which an awaited model operation rejected (forwarded by
`asyncHandler`). -/
inductive Err where
  | response (e : ErrorResponse)
  | validation
  deriving DecidableEq, Repr

/-- One call of `next`: its first argument and the numbers passed after it. -/
structure NextCall where
  err : Err
  rest : List Nat
  deriving DecidableEq, Repr

/-- The bootcamp fields that `populate` with `select: 'name description'` joins into a course. -/
structure BootcampRef where
  _id : String
  name : String
  description : String
  deriving DecidableEq, Repr

/-- The value of the `data` key of a response envelope. -/
inductive Data where
  | course (c : Course)
  | populated (c : Course) (b : Option BootcampRef)
  | courses (cs : List Course)
  | null
  | empty
  | promise
  deriving DecidableEq, Repr

/-- The value `res.advancedResults`, attached by upstream middleware; the controller passes
it on untouched, so its content is kept abstract. -/
structure AdvancedResults where
  raw : String
  deriving DecidableEq, Repr

/-- The argument of `res.json`. -/
inductive Payload where
  | envelope (success : Bool) (count : Option Nat) (data : Data)
  | advanced (r : AdvancedResults)
  deriving DecidableEq, Repr

/-- A response sent with `res.status(status).json(body)`. -/
structure Response where
  status : Nat
  body : Payload
  deriving DecidableEq, Repr

/-- The persistence calls the controller can make. -/
inductive Call where
  | courseFind
  | courseFindById
  | bootcampFindById
  | courseCreate
  | courseFindByIdAndUpdate
  | courseRemove
  deriving DecidableEq, Repr

/-- What one run of a handler leaves behind. -/
structure Outcome where
  store : Store
  res : Option Response
  next : Option NextCall
  calls : List Call
  deriving DecidableEq, Repr

/-! ## The model layer -/

/-- The part of the Course schema the controller depends on but that lives in the missing
`models/Course`: the validators run by `create`, the validators run by an update with
`runValidators: true`, and the id given to a new document. -/
structure CourseModel where
  validate : Body → Bool
  validateUpdate : Body → Bool
  newId : List Course → String

/-- JavaScript truthiness of a path parameter: defined and not the empty string. -/
def truthy : Option String → Bool
  | some s => s != ""
  | none => false

/-- Renders a value inside a template literal. -/
def render : Option String → String
  | some s => s
  | none => "undefined"

/-- Modelled from the spec: `Course.find({ bootcamp: id })` of the missing `models/Course`:
the stored courses whose `bootcamp` field equals the id, in store order. -/
def Course.find (cs : List Course) (bootcampId : Option String) : List Course :=
  cs.filter (fun c => some c.bootcamp == bootcampId)

/-- Modelled from the spec: `Course.findById(id)` of the missing `models/Course`: the stored
course with that `_id`, or `null` (here `none`); an `undefined` id finds nothing. -/
def Course.findById (cs : List Course) (id : Option String) : Option Course :=
  cs.find? (fun c => some c._id == id)

/-- Modelled from the spec: `Bootcamp.findById(id)` of the missing `models/Bootcamp`. -/
def Bootcamp.findById (bs : List Bootcamp) (id : Option String) : Option Bootcamp :=
  bs.find? (fun b => some b._id == id)

/-- Modelled from the spec: `.populate({ path: 'bootcamp', select: 'name description' })`:
the parent bootcamp reduced to its id, name and description, or `null` when it is gone. -/
def populate (bs : List Bootcamp) (c : Course) : Option BootcampRef :=
  (Bootcamp.findById bs (some c.bootcamp)).map (fun b => ⟨b._id, b.name, b.description⟩)

/-- Sets one key of the remaining fields of a document. -/
def setField (fs : List (String × String)) (k v : String) : List (String × String) :=
  match fs with
  | [] => [(k, v)]
  | (k', v') :: rest => if k' == k then (k, v) :: rest else (k', v') :: setField rest k v

/-- Modelled from the spec: the effect of an update on one document, decided by the schema of
the missing `models/Course`. The keys present in the body are set on the document, except
that the creator of a course is "captured at creation time, immutable thereafter": a `user`
key in the body is not applied. -/
def applyUpdate (c : Course) (body : Body) : Course :=
  { c with
    bootcamp := body.bootcamp.getD c.bootcamp
    fields := body.fields.foldl (fun acc kv => setField acc kv.1 kv.2) c.fields }

/-- Puts a new version in the place of the stored document with the given id. -/
def replaceById (cs : List Course) (id : Option String) (c' : Course) : List Course :=
  match cs with
  | [] => []
  | c :: rest => if some c._id == id then c' :: rest else c :: replaceById rest id c'

/-- Modelled from the spec: `Course.create(body)` of the missing `models/Course`: the body is
validated, and a valid body is persisted as a new document with a fresh id. A course belongs
to exactly one bootcamp and one user, so a body without either is invalid. The result is the
rejection, or the new document and the collection that holds it. -/
def Course.create (m : CourseModel) (cs : List Course) (body : Body) :
    Except Err (Course × List Course) :=
  match body.user, body.bootcamp with
  | some u, some b =>
    if m.validate body then
      let c : Course := ⟨m.newId cs, u, b, body.fields⟩
      .ok (c, cs ++ [c])
    else .error .validation
  | _, _ => .error .validation

/-- Modelled from the spec: `Course.findByIdAndUpdate(id, body, { new: true, runValidators:
true })` of the missing `models/Course`: a validated update that applies the body to the
document with that id (see `applyUpdate`) and yields the post-update document (`null` when
no document has the id). -/
def Course.findByIdAndUpdate (m : CourseModel) (cs : List Course) (id : Option String)
    (body : Body) : Except Err (Option Course × List Course) :=
  if m.validateUpdate body then
    match Course.findById cs id with
    | none => .ok (none, cs)
    | some c => .ok (some (applyUpdate c body), replaceById cs id (applyUpdate c body))
  else .error .validation

/-- Modelled from the spec: `course.remove()` of the missing `models/Course`: the stored
document with the id of `course` is deleted from the collection. -/
def Course.remove (cs : List Course) (course : Course) : List Course :=
  cs.eraseP (fun c => c._id == course._id)

/-! ## The course controller -/

/-- The handler `getCourses`. -/
def getCourses (req : Request) (adv : AdvancedResults) (s : Store) : Outcome :=
  if truthy req.params.bootcampId then
    let courses := Course.find s.courses req.params.bootcampId
    ⟨s, some ⟨200, .envelope true (some courses.length) (.courses courses)⟩, none,
      [.courseFind]⟩
  else
    ⟨s, some ⟨200, .advanced adv⟩, none, []⟩

/-- The handler `getCourse`. When no course is found, the error is built from the message
alone and 404 goes to `next` as a second argument. -/
def getCourse (req : Request) (s : Store) : Outcome :=
  match Course.findById s.courses req.params.id with
  | none =>
    ⟨s, none,
      some ⟨.response ⟨"No course with an id " ++ render req.params.id, none⟩, [404]⟩,
      [.courseFindById]⟩
  | some course =>
    ⟨s, some ⟨200, .envelope true none (.populated course (populate s.bootcamps course))⟩,
      none, [.courseFindById]⟩

/-- The handler `addCourse`. `Course.create` is called without `await`: the handler answers
at once with the pending promise as `data`, and the creation settles on its own (a rejection
reaches nobody). -/
def addCourse (m : CourseModel) (req : Request) (s : Store) : Outcome :=
  let body : Body :=
    { req.body with bootcamp := req.params.bootcampId, user := some req.user.id }
  match Bootcamp.findById s.bootcamps req.params.bootcampId with
  | none =>
    ⟨s, none,
      some ⟨.response ⟨"No bootcamp with an id " ++ render req.params.bootcampId, none⟩,
        [404]⟩,
      [.bootcampFindById]⟩
  | some bootcamp =>
    if bootcamp.user != req.user.id && req.user.role != "admin" then
      ⟨s, none,
        some ⟨.response ⟨"User with id " ++ req.user.id ++
          " is not authorized to add a course to bootcamp " ++ bootcamp._id ++ " ",
          some 401⟩, []⟩,
        [.bootcampFindById]⟩
    else
      let settled : Store :=
        match Course.create m s.courses body with
        | .ok (_, cs) => { s with courses := cs }
        | .error _ => s
      ⟨settled, some ⟨200, .envelope true none .promise⟩, none,
        [.bootcampFindById, .courseCreate]⟩

/-- The handler `updateCourse`. When the awaited `findByIdAndUpdate` rejects, the wrapper
`asyncHandler` (missing; by the spec every error thrown in a handler is forwarded to the
central formatter) hands the rejection to `next`. -/
def updateCourse (m : CourseModel) (req : Request) (s : Store) : Outcome :=
  match Course.findById s.courses req.params.id with
  | none =>
    ⟨s, none,
      some ⟨.response ⟨"No course with an id " ++ render req.params.id, none⟩, [404]⟩,
      [.courseFindById]⟩
  | some course =>
    if course.user != req.user.id && req.user.role != "admin" then
      ⟨s, none,
        some ⟨.response ⟨"User with id " ++ req.user.id ++
          " is not authorized to update course " ++ course._id ++ " ", some 401⟩, []⟩,
        [.courseFindById]⟩
    else
      match Course.findByIdAndUpdate m s.courses req.params.id req.body with
      | .error e => ⟨s, none, some ⟨e, []⟩, [.courseFindById, .courseFindByIdAndUpdate]⟩
      | .ok (doc, cs) =>
        ⟨{ s with courses := cs },
          some ⟨200, .envelope true none (match doc with | some c => .course c | none => .null)⟩,
          none, [.courseFindById, .courseFindByIdAndUpdate]⟩

/-- The handler `deleteCourse`. -/
def deleteCourse (req : Request) (s : Store) : Outcome :=
  match Course.findById s.courses req.params.id with
  | none =>
    ⟨s, none,
      some ⟨.response ⟨"No course with an id " ++ render req.params.id, none⟩, [404]⟩,
      [.courseFindById]⟩
  | some course =>
    if course.user != req.user.id && req.user.role != "admin" then
      ⟨s, none,
        some ⟨.response ⟨"User with id " ++ req.user.id ++
          " is not authorized to delete course " ++ course._id ++ " ", some 401⟩, []⟩,
        [.courseFindById]⟩
    else
      ⟨{ s with courses := Course.remove s.courses course },
        some ⟨200, .envelope true none .empty⟩, none, [.courseFindById, .courseRemove]⟩

/-- One request handled by the course controller. -/
inductive Op where
  | getCourses (req : Request) (adv : AdvancedResults)
  | getCourse (req : Request)
  | addCourse (req : Request)
  | updateCourse (req : Request)
  | deleteCourse (req : Request)
  deriving DecidableEq, Repr

/-- Runs the handler a request is routed to. -/
def Op.run (m : CourseModel) (op : Op) (s : Store) : Outcome :=
  match op with
  | .getCourses req adv => Labson.getCourses req adv s
  | .getCourse req => Labson.getCourse req s
  | .addCourse req => Labson.addCourse m req s
  | .updateCourse req => Labson.updateCourse m req s
  | .deleteCourse req => Labson.deleteCourse req s

/-- The store after a sequence of requests has been handled one after the other. -/
def runAll (m : CourseModel) (ops : List Op) (s : Store) : Store :=
  match ops with
  | [] => s
  | op :: rest => runAll m rest (op.run m s).store

/-- The requests of a run, each paired with the store it was handled on. -/
def trace (m : CourseModel) (ops : List Op) (s : Store) : List (Op × Store) :=
  match ops with
  | [] => []
  | op :: rest => (op, s) :: trace m rest (op.run m s).store

/-- Whether the request, handled on the given store, is a deleteCourse for the course with
id `j` that goes through (it is answered with a response, so the course is removed). -/
def Op.removes (op : Op) (s : Store) (j : String) : Bool :=
  match op with
  | .deleteCourse req => req.params.id == some j && (Labson.deleteCourse req s).res.isSome
  | _ => false

/-! ## The auth route table -/

/-- HTTP verbs a request can carry. -/
inductive Method where
  | GET
  | HEAD
  | POST
  | PUT
  | PATCH
  | DELETE
  | OPTIONS
  deriving DecidableEq, Repr

/-- One segment of a route path: a literal, or a named parameter such as `:resettoken`. -/
inductive Seg where
  | lit (s : String)
  | param (name : String)
  deriving DecidableEq, Repr

/-- The functions mounted on the auth router: the eight controller actions and the
`protect` middleware. -/
inductive Handler where
  | register
  | login
  | getMe
  | logout
  | forgotPassword
  | resetPassword
  | updateDetails
  | updatePassword
  | protect
  deriving DecidableEq, Repr

/-- One line `router.verb(path, ...stack)` of the route table. -/
structure Route where
  method : Method
  path : List Seg
  stack : List Handler
  deriving DecidableEq, Repr

/-- The auth route table, in source order. -/
def router : List Route :=
  [ ⟨.POST, [.lit "register"], [.register]⟩,
    ⟨.POST, [.lit "login"], [.login]⟩,
    ⟨.GET, [.lit "logout"], [.logout]⟩,
    ⟨.GET, [.lit "me"], [.protect, .getMe]⟩,
    ⟨.POST, [.lit "forgotpassword"], [.forgotPassword]⟩,
    ⟨.PUT, [.lit "resetpassword", .param "resettoken"], [.resetPassword]⟩,
    ⟨.PUT, [.lit "updateDetails"], [.protect, .updateDetails]⟩,
    ⟨.PUT, [.lit "updatePassword"], [.protect, .updatePassword]⟩ ]

/-- Cuts the characters of a path, taken after its leading slash, at every slash. A path that
ends in a slash has an empty last segment. -/
def splitSlash : List Char → List (List Char)
  | [] => [[]]
  | c :: cs =>
    if c = '/' then [] :: splitSlash cs
    else
      match splitSlash cs with
      | [] => [[c]]
      | seg :: rest => (c :: seg) :: rest

/-- The segments of a request path (the path below the mount point of the router, without
the query string); a path that does not start with a slash has none. -/
def segments (path : String) : Option (List (List Char)) :=
  match path.toList with
  | '/' :: cs => some (splitSlash cs)
  | _ => none

/-- Whether a route path matches the segments of a request path, as a router made by
`express.Router()` with its default options decides it: literals are compared without regard
to letter case, a parameter matches any non-empty segment, and one trailing slash is
tolerated. -/
def matchPath : List Seg → List (List Char) → Bool
  | [], [] => true
  | [], [[]] => true
  | .lit s :: ps, x :: xs =>
    (s.toList.map Char.toLower == x.map Char.toLower) && matchPath ps xs
  | .param _ :: ps, x :: xs => !x.isEmpty && matchPath ps xs
  | _, _ => false

/-- Whether a route registered for one verb handles a request with another: its own verb,
and a route registered with `router.get` also serves HEAD. -/
def handlesMethod (route request : Method) : Bool :=
  route == request || (request == Method.HEAD && route == Method.GET)

/-- The stack of a route as the web framework runs it: each function runs in turn, and the
one after it runs only if this one passed control on. A controller action ends the request;
`protect` passes control on exactly when it resolves a caller (`protectPasses`). Yields the
functions that ran, in order. -/
def runStack (protectPasses : Bool) : List Handler → List Handler
  | [] => []
  | .protect :: rest => .protect :: (if protectPasses then runStack protectPasses rest else [])
  | h :: _ => [h]

/-- The first route of the table that serves a request with the given verb and path. -/
def route? (method : Method) (path : String) : Option Route :=
  match segments path with
  | some segs => router.find? (fun r => handlesMethod r.method method && matchPath r.path segs)
  | none => none

/-- The functions that run for a request with the given verb and path: the stack of the first
route that serves it, or nothing. -/
def dispatch (protectPasses : Bool) (method : Method) (path : String) : List Handler :=
  match route? method path with
  | some r => runStack protectPasses r.stack
  | none => []

/-- The routes whose stack holds `protect` directly before the controller action. -/
def protectedRoutes : List Route :=
  router.filter (fun r => r.stack.head? == some Handler.protect && r.stack.length == 2)

/-- The routes whose stack does not hold `protect` at all. -/
def publicRoutes : List Route :=
  router.filter (fun r => !(r.stack.contains Handler.protect))

/-! ## Example data -/

/-- A schema whose validators demand a non-empty title whenever a title is given, and which
numbers new documents by the size of the collection. -/
def demoModel : CourseModel where
  validate := fun b => !(b.fields.any (fun kv => kv.1 == "title" && kv.2 == ""))
  validateUpdate := fun b => !(b.fields.any (fun kv => kv.1 == "title" && kv.2 == ""))
  newId := fun cs => "C" ++ toString (cs.length + 1)

/-- A store with one bootcamp B1 owned by U1 and one course C1 created by U1. -/
def demoStore : Store :=
  ⟨[⟨"C1", "U1", "B1", [("title", "Intro")]⟩], [⟨"B1", "U1", "Devworks", "Full stack"⟩]⟩

/-- A request with the given path parameters, body and caller. -/
def demoRequest (id bootcampId : Option String) (body : Body) (uid role : String) : Request :=
  ⟨⟨id, bootcampId⟩, body, ⟨uid, role⟩⟩

/-! ## Lemmas on the model layer -/

theorem Course.findById_some {cs : List Course} {id : Option String} {c : Course}
    (h : Course.findById cs id = some c) : c ∈ cs ∧ some c._id = id := by
  unfold Course.findById at h
  exact ⟨List.mem_of_find?_eq_some h, by simpa using List.find?_some h⟩

theorem mem_replaceById {cs : List Course} {id : Option String} {c' x : Course}
    (h : x ∈ replaceById cs id c') : x ∈ cs ∨ x = c' := by
  induction cs with
  | nil => simp [replaceById] at h
  | cons c rest ih =>
    unfold replaceById at h
    split at h
    · rcases List.mem_cons.mp h with h | h
      · exact Or.inr h
      · exact Or.inl (List.mem_cons_of_mem _ h)
    · rcases List.mem_cons.mp h with h | h
      · exact Or.inl (h ▸ List.mem_cons_self _ _)
      · rcases ih h with h | h
        · exact Or.inl (List.mem_cons_of_mem _ h)
        · exact Or.inr h

theorem Course.findById_replaceById {cs : List Course} {id : Option String} {c c' : Course}
    (h : Course.findById cs id = some c) (hid : some c'._id = id) :
    Course.findById (replaceById cs id c') id = some c' := by
  induction cs with
  | nil => simp [Course.findById] at h
  | cons x rest ih =>
    unfold replaceById
    by_cases hx : some x._id = id
    · simp [hx, Course.findById, hid]
    · have hrest : Course.findById rest id = some c := by
        simpa [Course.findById, List.find?_cons, hx] using h
      simpa [hx, Course.findById, List.find?_cons] using ih hrest

theorem applyUpdate_id (c : Course) (body : Body) : (applyUpdate c body)._id = c._id := rfl

theorem applyUpdate_user (c : Course) (body : Body) : (applyUpdate c body).user = c.user := rfl

/-- Replacing the first document with a given id by one with the same id and user changes
the user found under no id. -/
theorem Course.findById_replaceById_user {cs : List Course} {id : Option String}
    {c c' : Course} (h : Course.findById cs id = some c)
    (hid : c'._id = c._id) (hu : c'.user = c.user) (j : Option String) :
    (Course.findById (replaceById cs id c') j).map Course.user =
      (Course.findById cs j).map Course.user := by
  induction cs with
  | nil => simp [Course.findById] at h
  | cons x rest ih =>
    simp only [Course.findById, List.find?_cons] at h ih ⊢
    simp only [replaceById]
    cases hx : (some x._id == id) with
    | true =>
      simp only [hx] at h
      cases h
      simp only [if_true, List.find?_cons, hid]
      generalize (some c._id == j) = b
      cases b
      · rfl
      · simp only [Option.map_some', hu]
    | false =>
      simp only [hx] at h
      simp only [Bool.false_eq_true, if_false, List.find?_cons]
      generalize (some x._id == j) = b
      cases b
      · exact ih h
      · rfl

/-- Appending one document changes what is found under an id only if nothing was found
before and the new document has that id. -/
theorem Course.findById_append_single (cs : List Course) (n : Course) (j : Option String) :
    Course.findById (cs ++ [n]) j =
      (Course.findById cs j).or (if some n._id == j then some n else none) := by
  simp only [Course.findById, List.find?_append, List.find?_cons, List.find?_nil]
  cases (some n._id == j) <;> rfl

/-- Removing the document with one id does not change what is found under another id. -/
theorem Course.findById_remove_ne (cs : List Course) (course : Course) (j : String)
    (hj : course._id ≠ j) :
    Course.findById (Course.remove cs course) (some j) = Course.findById cs (some j) := by
  induction cs with
  | nil => rfl
  | cons x rest ih =>
    simp only [Course.remove, Course.findById, List.eraseP_cons, List.find?_cons] at ih ⊢
    cases hx : (x._id == course._id) with
    | true =>
      have hxc : x._id = course._id := by simpa using hx
      have hb : (some x._id == some j) = false := by simp [hxc, hj]
      simp only [cond_true, hb]
    | false =>
      simp only [cond_false, List.find?_cons]
      generalize (some x._id == some j) = b
      cases b
      · exact ih
      · rfl

/-- What one request does to the user found under the id `j`: nothing, unless the request
is a deleteCourse for `j` that goes through, or an addCourse that creates the course `j`,
whose user is then the caller. -/
theorem run_user_step (m : CourseModel) (op : Op) (s : Store) (j : String) :
    (Course.findById (op.run m s).store.courses (some j)).map Course.user =
        (Course.findById s.courses (some j)).map Course.user ∨
    op.removes s j = true ∨
    (∃ req, op = Op.addCourse req ∧ Course.findById s.courses (some j) = none ∧
      (Course.findById (op.run m s).store.courses (some j)).map Course.user =
        some req.user.id) := by
  cases op with
  | getCourses req adv =>
    left
    simp only [Op.run, getCourses]
    split <;> rfl
  | getCourse req =>
    left
    simp only [Op.run, getCourse]
    split <;> rfl
  | addCourse req =>
    simp only [Op.run, addCourse]
    split
    · exact Or.inl rfl
    · split
      · exact Or.inl rfl
      · simp only [Course.create]
        by_cases hv : m.validate
            { req.body with bootcamp := req.params.bootcampId, user := some req.user.id } = true
        · cases hb : req.params.bootcampId with
          | none => simp
          | some b =>
            simp only [hb] at hv
            simp only [hv, if_true]
            cases hfind : Course.findById s.courses (some j) with
            | some c =>
              left
              simp only [Course.findById_append_single, hfind, Option.or]
            | none =>
              by_cases hnew : (some (m.newId s.courses) == some j) = true
              · right; right
                refine ⟨req, rfl, rfl, ?_⟩
                simp only [Course.findById_append_single, hfind, Option.or, hnew,
                  if_true, Option.map_some']
              · left
                simp only [Course.findById_append_single, hfind, Option.or, hnew,
                  Bool.false_eq_true, if_false, Option.map_none']
        · cases hb : req.params.bootcampId with
          | none => simp
          | some b =>
            simp only [hb] at hv
            simp [hv]
  | updateCourse req =>
    left
    simp only [Op.run, updateCourse]
    split
    · rfl
    · rename_i course hfind
      split
      · rfl
      · simp only [Course.findByIdAndUpdate, hfind]
        by_cases hv : m.validateUpdate req.body = true
        · simp only [hv, if_true]
          exact Course.findById_replaceById_user hfind (applyUpdate_id _ _)
            (applyUpdate_user _ _) (some j)
        · simp [hv]
  | deleteCourse req =>
    simp only [Op.run, Op.removes, deleteCourse]
    split
    · exact Or.inl rfl
    · rename_i course hfind
      split
      · exact Or.inl rfl
      · by_cases hj : course._id = j
        · right; left
          have hid := (Course.findById_some hfind).2
          simp [← hid, hj]
        · left
          simp only
          rw [Course.findById_remove_ne _ _ _ hj]

/-- In every route of the table, a protected controller action runs only after `protect`
passed control on. -/
theorem runStack_guarded :
    ∀ passes : Bool, ∀ r ∈ router,
      ∀ h ∈ [Handler.getMe, Handler.updateDetails, Handler.updatePassword],
        h ∈ runStack passes r.stack → passes = true := by
  decide

/-! ## Claims -/

/-- C1: when the id of a getCourse request resolves to no stored course, the claim expects
the forwarded error to carry status code 404; the handler builds the error from the message
alone, so its status code is undefined, and 404 is a stray second argument of `next`. No
response is sent. -/
theorem getCourse_missing_error_has_no_status :
    Course.findById demoStore.courses (some "C9") = none ∧
    getCourse (demoRequest (some "C9") none ⟨none, none, []⟩ "U1" "user") demoStore =
      ⟨demoStore, none,
        some ⟨.response ⟨"No course with an id C9", none⟩, [404]⟩, [.courseFindById]⟩ := by
  decide

/-- C3: when the bootcamp exists and the caller is neither its owner nor an admin, addCourse
forwards an error with status code 401 to next, sends no response, never calls Course.create
and leaves the store as it was. -/
theorem addCourse_unauthorized (m : CourseModel) (req : Request) (s : Store)
    (bootcamp : Bootcamp)
    (hb : Bootcamp.findById s.bootcamps req.params.bootcampId = some bootcamp)
    (hu : req.user.id ≠ bootcamp.user) (hr : req.user.role ≠ "admin") :
    (∃ msg, (addCourse m req s).next = some ⟨.response ⟨msg, some 401⟩, []⟩) ∧
    (addCourse m req s).res = none ∧
    Call.courseCreate ∉ (addCourse m req s).calls ∧
    (addCourse m req s).store = s := by
  have hu' : bootcamp.user ≠ req.user.id := fun h => hu h.symm
  simp [addCourse, hb, hu', hr]

/-- Witness of C3: caller U2 with role user adds a course to bootcamp B1, which U1 owns. -/
theorem addCourse_unauthorized_witness :
    (∃ msg, (addCourse demoModel
        (demoRequest none (some "B1") ⟨none, none, [("title", "Node Basics")]⟩ "U2" "user")
        demoStore).next = some ⟨.response ⟨msg, some 401⟩, []⟩) ∧
    (addCourse demoModel
        (demoRequest none (some "B1") ⟨none, none, [("title", "Node Basics")]⟩ "U2" "user")
        demoStore).res = none ∧
    Call.courseCreate ∉ (addCourse demoModel
        (demoRequest none (some "B1") ⟨none, none, [("title", "Node Basics")]⟩ "U2" "user")
        demoStore).calls ∧
    (addCourse demoModel
        (demoRequest none (some "B1") ⟨none, none, [("title", "Node Basics")]⟩ "U2" "user")
        demoStore).store = demoStore :=
  addCourse_unauthorized demoModel
    (demoRequest none (some "B1") ⟨none, none, [("title", "Node Basics")]⟩ "U2" "user")
    demoStore ⟨"B1", "U1", "Devworks", "Full stack"⟩ (by decide) (by decide) (by decide)

/-- C4: when the bootcampId of an addCourse request resolves to no stored bootcamp, the claim
expects the forwarded error to carry status code 404; the handler builds the error from the
message alone, so its status code is undefined, and 404 is a stray second argument of `next`.
No response is sent and the store is unchanged. The caller here is an admin. -/
theorem addCourse_missing_bootcamp_error_has_no_status :
    Bootcamp.findById demoStore.bootcamps (some "B7") = none ∧
    addCourse demoModel
        (demoRequest none (some "B7") ⟨none, none, [("title", "Node Basics")]⟩ "U9" "admin")
        demoStore =
      ⟨demoStore, none,
        some ⟨.response ⟨"No bootcamp with an id B7", none⟩, [404]⟩, [.bootcampFindById]⟩ := by
  decide

/-- C5: when the course exists and the caller is neither its creator nor an admin, both
updateCourse and deleteCourse forward an error with status code 401 to next, send no
response, call neither findByIdAndUpdate nor remove, and leave every stored course as it
was. -/
theorem update_delete_unauthorized (m : CourseModel) (req : Request) (s : Store)
    (course : Course)
    (hc : Course.findById s.courses req.params.id = some course)
    (hu : req.user.id ≠ course.user) (hr : req.user.role ≠ "admin") :
    ((∃ msg, (updateCourse m req s).next = some ⟨.response ⟨msg, some 401⟩, []⟩) ∧
      (updateCourse m req s).res = none ∧
      Call.courseFindByIdAndUpdate ∉ (updateCourse m req s).calls ∧
      Call.courseRemove ∉ (updateCourse m req s).calls ∧
      (updateCourse m req s).store = s ∧
      Course.findById (updateCourse m req s).store.courses req.params.id = some course) ∧
    ((∃ msg, (deleteCourse req s).next = some ⟨.response ⟨msg, some 401⟩, []⟩) ∧
      (deleteCourse req s).res = none ∧
      Call.courseFindByIdAndUpdate ∉ (deleteCourse req s).calls ∧
      Call.courseRemove ∉ (deleteCourse req s).calls ∧
      (deleteCourse req s).store = s ∧
      Course.findById (deleteCourse req s).store.courses req.params.id = some course) := by
  have hu' : course.user ≠ req.user.id := fun h => hu h.symm
  simp [updateCourse, deleteCourse, hc, hu', hr]

/-- Witness of C5: caller U2 with role user updates and deletes course C1, which U1 created. -/
theorem update_delete_unauthorized_witness :
    (updateCourse demoModel
        (demoRequest (some "C1") none ⟨none, none, [("title", "Mine")]⟩ "U2" "user")
        demoStore).store = demoStore ∧
    (deleteCourse
        (demoRequest (some "C1") none ⟨none, none, [("title", "Mine")]⟩ "U2" "user")
        demoStore).store = demoStore :=
  have h := update_delete_unauthorized demoModel
    (demoRequest (some "C1") none ⟨none, none, [("title", "Mine")]⟩ "U2" "user")
    demoStore ⟨"C1", "U1", "B1", [("title", "Intro")]⟩ (by decide) (by decide) (by decide)
  ⟨h.1.2.2.2.2.1, h.2.2.2.2.2.1⟩

/-- C8: a getCourses request with a non-empty bootcampId answers 200 with success true, data
exactly the stored courses whose bootcamp field equals that id (in store order, none missing,
none foreign) and count the length of data; without a bootcampId the response body is
res.advancedResults. -/
theorem getCourses_scoped_or_advanced (req : Request) (adv : AdvancedResults) (s : Store) :
    (∀ id : String, req.params.bootcampId = some id → id ≠ "" →
      ∃ data : List Course,
        (getCourses req adv s).res =
          some ⟨200, .envelope true (some data.length) (.courses data)⟩ ∧
        (getCourses req adv s).next = none ∧
        data = s.courses.filter (fun c => c.bootcamp = id) ∧
        (∀ c, c ∈ data ↔ c ∈ s.courses ∧ c.bootcamp = id)) ∧
    (req.params.bootcampId = none →
      (getCourses req adv s).res = some ⟨200, .advanced adv⟩ ∧
      (getCourses req adv s).next = none) := by
  refine ⟨?_, ?_⟩
  · intro id hid hne
    refine ⟨Course.find s.courses (some id), ?_, ?_, ?_, ?_⟩
    · simp [getCourses, hid, truthy, hne]
    · simp [getCourses, hid, truthy, hne]
    · simp only [Course.find]
      congr 1
    · intro c
      simp [Course.find, List.mem_filter]
  · intro hnone
    simp [getCourses, hnone, truthy]

/-- Witness of C8: listing the courses of bootcamp B1 in the example store. -/
theorem getCourses_scoped_or_advanced_witness :
    ∃ data : List Course,
      (getCourses (demoRequest none (some "B1") ⟨none, none, []⟩ "U1" "user") ⟨"all"⟩
        demoStore).res = some ⟨200, .envelope true (some data.length) (.courses data)⟩ ∧
      (getCourses (demoRequest none (some "B1") ⟨none, none, []⟩ "U1" "user") ⟨"all"⟩
        demoStore).next = none ∧
      data = demoStore.courses.filter (fun c => c.bootcamp = "B1") ∧
      (∀ c, c ∈ data ↔ c ∈ demoStore.courses ∧ c.bootcamp = "B1") :=
  (getCourses_scoped_or_advanced (demoRequest none (some "B1") ⟨none, none, []⟩ "U1" "user")
    ⟨"all"⟩ demoStore).1 "B1" rfl (by decide)

/-- C2: when the owner of bootcamp B1 adds a course, the claim expects the response data to
be the persisted course document; the handler does not await Course.create, so it answers 200
with the pending promise as data. The course that settles into the store does carry the id
of the caller as user and the bootcampId of the path as bootcamp, whatever the body said. -/
theorem addCourse_owner_answers_with_promise :
    addCourse demoModel
        (demoRequest none (some "B1") ⟨some "X", some "Y", [("title", "Node Basics")]⟩
          "U1" "user")
        demoStore =
      ⟨⟨demoStore.courses ++ [⟨"C2", "U1", "B1", [("title", "Node Basics")]⟩],
          demoStore.bootcamps⟩,
        some ⟨200, .envelope true none .promise⟩, none,
        [.bootcampFindById, .courseCreate]⟩ ∧
    (addCourse demoModel
        (demoRequest none (some "B1") ⟨some "X", some "Y", [("title", "Node Basics")]⟩
          "U1" "user")
        demoStore).res ≠
      some ⟨200, .envelope true none
        (.course ⟨"C2", "U1", "B1", [("title", "Node Basics")]⟩)⟩ := by
  decide

/-- C6, as stated, fails: an admin updates the existing course C1 with a body the schema
validators reject (an empty title); no response with status 200 is sent, the validation
error goes to next and the stored course is not updated. -/
theorem updateCourse_admin_invalid_body_rejected :
    Course.findById demoStore.courses (some "C1") =
      some ⟨"C1", "U1", "B1", [("title", "Intro")]⟩ ∧
    updateCourse demoModel
        (demoRequest (some "C1") none ⟨none, none, [("title", "")]⟩ "U3" "admin")
        demoStore =
      ⟨demoStore, none, some ⟨.validation, []⟩,
        [.courseFindById, .courseFindByIdAndUpdate]⟩ := by
  decide

/-- C6, amended: for every updateCourse request on an existing course by a caller whose role
is admin, whoever the user of the course is, and whose body passes the update validators of
the schema: nothing is forwarded to next (no 401), the update is applied with the request
body, and the response is 200 with success true and data the post-update document, which is
the document stored under that id afterwards. -/
theorem updateCourse_admin_valid_body (m : CourseModel) (req : Request) (s : Store)
    (course : Course)
    (hc : Course.findById s.courses req.params.id = some course)
    (hr : req.user.role = "admin")
    (hv : m.validateUpdate req.body = true) :
    (updateCourse m req s).next = none ∧
    (updateCourse m req s).res =
      some ⟨200, .envelope true none (.course (applyUpdate course req.body))⟩ ∧
    (updateCourse m req s).calls = [.courseFindById, .courseFindByIdAndUpdate] ∧
    (updateCourse m req s).store.courses =
      replaceById s.courses req.params.id (applyUpdate course req.body) ∧
    Course.findById (updateCourse m req s).store.courses req.params.id =
      some (applyUpdate course req.body) := by
  have hid : some (applyUpdate course req.body)._id = req.params.id :=
    (Course.findById_some hc).2
  have hstore : (updateCourse m req s).store.courses =
      replaceById s.courses req.params.id (applyUpdate course req.body) := by
    simp [updateCourse, hc, hr, Course.findByIdAndUpdate, hv]
  refine ⟨?_, ?_, ?_, hstore, ?_⟩
  · simp [updateCourse, hc, hr, Course.findByIdAndUpdate, hv]
  · simp [updateCourse, hc, hr, Course.findByIdAndUpdate, hv]
  · simp [updateCourse, hc, hr, Course.findByIdAndUpdate, hv]
  · rw [hstore]
    exact Course.findById_replaceById hc hid

/-- Witness of the amended C6: admin U3 retitles course C1, which U1 created. -/
theorem updateCourse_admin_valid_body_witness :
    (updateCourse demoModel
        (demoRequest (some "C1") none ⟨none, none, [("title", "Advanced")]⟩ "U3" "admin")
        demoStore).res =
      some ⟨200, .envelope true none
        (.course (applyUpdate ⟨"C1", "U1", "B1", [("title", "Intro")]⟩
          ⟨none, none, [("title", "Advanced")]⟩))⟩ :=
  (updateCourse_admin_valid_body demoModel
    (demoRequest (some "C1") none ⟨none, none, [("title", "Advanced")]⟩ "U3" "admin")
    demoStore ⟨"C1", "U1", "B1", [("title", "Intro")]⟩ (by decide) (by decide)
    (by decide)).2.1

/-- C7: the owner deletes course C1 (200, success true, data empty) and the course is gone
from the store; the claim expects the getCourse that follows to forward an error with status
code 404, but the error it builds has no status code: 404 is a stray second argument of
`next`. This is the defect of C1. -/
theorem delete_then_get_error_has_no_status :
    deleteCourse (demoRequest (some "C1") none ⟨none, none, []⟩ "U1" "user") demoStore =
      ⟨⟨[], demoStore.bootcamps⟩, some ⟨200, .envelope true none .empty⟩, none,
        [.courseFindById, .courseRemove]⟩ ∧
    getCourse (demoRequest (some "C1") none ⟨none, none, []⟩ "U1" "user")
        (deleteCourse (demoRequest (some "C1") none ⟨none, none, []⟩ "U1" "user")
          demoStore).store =
      ⟨⟨[], demoStore.bootcamps⟩, none,
        some ⟨.response ⟨"No course with an id C1", none⟩, [404]⟩, [.courseFindById]⟩ := by
  decide

/-- C9: the user of a course is fixed at creation. An addCourse either leaves the collection
as it was or appends one course whose user is the caller. An updateCourse on an existing
course, with any body (also one that holds a user field), leaves the user stored under that
id as it was. And for every sequence of course-controller requests: a course that is stored
with user u is, after the sequence, still stored with user u, unless a deleteCourse for it
went through on the way. -/
theorem creator_immutable (m : CourseModel) :
    (∀ (req : Request) (s : Store),
      (addCourse m req s).store.courses = s.courses ∨
      ∃ c, (addCourse m req s).store.courses = s.courses ++ [c] ∧ c.user = req.user.id) ∧
    (∀ (req : Request) (s : Store) (course : Course),
      Course.findById s.courses req.params.id = some course →
      (Course.findById (updateCourse m req s).store.courses req.params.id).map Course.user =
        some course.user) ∧
    (∀ (ops : List Op) (s : Store) (j u : String),
      (Course.findById s.courses (some j)).map Course.user = some u →
      (∀ p ∈ trace m ops s, p.1.removes p.2 j = false) →
      (Course.findById (runAll m ops s).courses (some j)).map Course.user = some u) := by
  refine ⟨?_, ?_, ?_⟩
  · intro req s
    simp only [addCourse]
    split
    · exact Or.inl rfl
    · split
      · exact Or.inl rfl
      · simp only [Course.create]
        by_cases hv : m.validate
            { req.body with bootcamp := req.params.bootcampId, user := some req.user.id } = true
        · cases hb : req.params.bootcampId with
          | none => exact Or.inl rfl
          | some b =>
            simp only [hb] at hv
            simp only [hv, if_true]
            exact Or.inr ⟨_, rfl, rfl⟩
        · cases hb : req.params.bootcampId with
          | none => exact Or.inl rfl
          | some b =>
            simp only [hb] at hv
            simp only [hv]
            exact Or.inl rfl
  · intro req s course hfind
    cases hid : req.params.id with
    | none =>
      rw [hid] at hfind
      exact absurd (Course.findById_some hfind).2 (by simp)
    | some j =>
      rcases run_user_step m (Op.updateCourse req) s j with h | h | ⟨r, h, -⟩
      · rw [hid] at hfind
        simpa [Op.run, hid, hfind] using h
      · simp [Op.removes] at h
      · cases h
  · intro ops
    induction ops with
    | nil =>
      intro s j u h0 _
      exact h0
    | cons op rest ih =>
      intro s j u h0 hdel
      have hhead : op.removes s j = false := hdel (op, s) (List.mem_cons_self _ _)
      have htail : ∀ p ∈ trace m rest (op.run m s).store, p.1.removes p.2 j = false :=
        fun p hp => hdel p (List.mem_cons_of_mem _ hp)
      refine ih (op.run m s).store j u ?_ htail
      rcases run_user_step m op s j with h | h | ⟨r, -, hnone, -⟩
      · exact h.trans h0
      · rw [hhead] at h
        cases h
      · rw [hnone] at h0
        cases h0

/-- Witness of C9: on the example store, where C1 has user U1, the owner U1 sends an update of
C1 whose body holds user U2, U1 adds a course with user X in the body, and the stranger U2
asks to delete C1 and is refused; C1 is still stored with user U1. -/
theorem creator_immutable_witness :
    (Course.findById (runAll demoModel
        [Op.updateCourse (demoRequest (some "C1") none ⟨some "U2", none, []⟩ "U1" "user"),
          Op.addCourse
            (demoRequest none (some "B1") ⟨some "X", none, [("title", "Node Basics")]⟩
              "U1" "user"),
          Op.deleteCourse (demoRequest (some "C1") none ⟨none, none, []⟩ "U2" "user")]
        demoStore).courses (some "C1")).map Course.user = some "U1" :=
  (creator_immutable demoModel).2.2
    [Op.updateCourse (demoRequest (some "C1") none ⟨some "U2", none, []⟩ "U1" "user"),
      Op.addCourse
        (demoRequest none (some "B1") ⟨some "X", none, [("title", "Node Basics")]⟩
          "U1" "user"),
      Op.deleteCourse (demoRequest (some "C1") none ⟨none, none, []⟩ "U2" "user")]
    demoStore "C1" "U1" (by decide) (by decide)

/-- C10: in the auth route table exactly GET /me, PUT /updateDetails and PUT /updatePassword
have protect placed before their handler, the other five routes have no protect, and
together they are the whole table. In every route of the table, and so for every request
whatever route serves it, getMe, updateDetails or updatePassword runs only if protect passed
control on: a request that protect rejects reaches none of them. A request to one of the
three routes (also in another letter case, with a trailing slash, or as HEAD for GET) runs
protect first and reaches the handler when protect lets it through. -/
theorem protect_guards_exactly_three :
    (protectedRoutes =
      [ ⟨.GET, [.lit "me"], [.protect, .getMe]⟩,
        ⟨.PUT, [.lit "updateDetails"], [.protect, .updateDetails]⟩,
        ⟨.PUT, [.lit "updatePassword"], [.protect, .updatePassword]⟩ ]) ∧
    (publicRoutes =
      [ ⟨.POST, [.lit "register"], [.register]⟩,
        ⟨.POST, [.lit "login"], [.login]⟩,
        ⟨.GET, [.lit "logout"], [.logout]⟩,
        ⟨.POST, [.lit "forgotpassword"], [.forgotPassword]⟩,
        ⟨.PUT, [.lit "resetpassword", .param "resettoken"], [.resetPassword]⟩ ]) ∧
    (∀ r, r ∈ router ↔ r ∈ protectedRoutes ∨ r ∈ publicRoutes) ∧
    (∀ (passes : Bool), ∀ r ∈ router,
      ∀ h ∈ [Handler.getMe, Handler.updateDetails, Handler.updatePassword],
        h ∈ runStack passes r.stack → passes = true) ∧
    (∀ r ∈ router, ∀ h ∈ [Handler.getMe, Handler.updateDetails, Handler.updatePassword],
      h ∈ r.stack → runStack false r.stack = [Handler.protect] ∧
        runStack true r.stack = [Handler.protect, h]) ∧
    (∀ (passes : Bool) (method : Method) (path : String),
      dispatch passes method path = [] ∨
      ∃ r ∈ router, dispatch passes method path = runStack passes r.stack) ∧
    (∀ (passes : Bool) (method : Method) (path : String) (h : Handler),
      h ∈ [Handler.getMe, Handler.updateDetails, Handler.updatePassword] →
      h ∈ dispatch passes method path → passes = true) ∧
    (∀ (method : Method) (path : String),
      Handler.getMe ∉ dispatch false method path ∧
      Handler.updateDetails ∉ dispatch false method path ∧
      Handler.updatePassword ∉ dispatch false method path) ∧
    (dispatch true .GET "/me" = [.protect, .getMe] ∧
      dispatch true .GET "/ME" = [.protect, .getMe] ∧
      dispatch true .GET "/me/" = [.protect, .getMe] ∧
      dispatch true .HEAD "/me" = [.protect, .getMe] ∧
      dispatch true .PUT "/updateDetails" = [.protect, .updateDetails] ∧
      dispatch true .PUT "/updatedetails" = [.protect, .updateDetails] ∧
      dispatch true .PUT "/updatePassword" = [.protect, .updatePassword] ∧
      dispatch false .GET "/me" = [.protect] ∧
      dispatch false .GET "/ME" = [.protect] ∧
      dispatch false .HEAD "/me/" = [.protect] ∧
      dispatch false .PUT "/updatedetails" = [.protect] ∧
      dispatch false .PUT "/updatePassword/" = [.protect]) := by
  have hroute : ∀ (passes : Bool) (method : Method) (path : String),
      dispatch passes method path = [] ∨
      ∃ r ∈ router, dispatch passes method path = runStack passes r.stack := by
    intro passes method path
    unfold dispatch
    cases hr : route? method path with
    | none => exact Or.inl rfl
    | some r =>
      refine Or.inr ⟨r, ?_, rfl⟩
      unfold route? at hr
      split at hr
      · exact List.mem_of_find?_eq_some hr
      · cases hr
  have key : ∀ (passes : Bool) (method : Method) (path : String) (h : Handler),
      h ∈ [Handler.getMe, Handler.updateDetails, Handler.updatePassword] →
      h ∈ dispatch passes method path → passes = true := by
    intro passes method path h hh hrun
    rcases hroute passes method path with hnil | ⟨r, hr, heq⟩
    · rw [hnil] at hrun
      cases hrun
    · rw [heq] at hrun
      exact runStack_guarded passes r hr h hh hrun
  have h1 : ∀ r ∈ router, r ∈ protectedRoutes ∨ r ∈ publicRoutes := by decide
  have h2 : ∀ r ∈ protectedRoutes, r ∈ router := by decide
  have h3 : ∀ r ∈ publicRoutes, r ∈ router := by decide
  refine ⟨by decide, by decide, fun r => ⟨h1 r, fun h => h.elim (h2 r) (h3 r)⟩,
    runStack_guarded, by decide, hroute, key, ?_, by decide⟩
  intro method path
  refine ⟨fun hm => ?_, fun hm => ?_, fun hm => ?_⟩
  · exact Bool.false_ne_true (key false method path _ (by decide) hm)
  · exact Bool.false_ne_true (key false method path _ (by decide) hm)
  · exact Bool.false_ne_true (key false method path _ (by decide) hm)

/-- Witness of C10: a GET /ME/ reaches getMe when protect lets it through and does not when
protect rejects it. -/
theorem protect_guards_exactly_three_witness :
    Handler.getMe ∈ dispatch true .GET "/ME/" ∧ Handler.getMe ∉ dispatch false .GET "/ME/" :=
  ⟨by decide, (protect_guards_exactly_three.2.2.2.2.2.2.2.1 .GET "/ME/").1⟩

end Labson
